import Mathlib

/-!
Verification development for the CodeChecker report-converter core.

We shallowly embed the Python sources:

* `codechecker_report_converter/clang_tidy/plist_converter.py`
  (`_get_checker_category`),
* `codechecker_report_converter/sanitizers/thread/output_parser.py`
  (`TSANParser.parse_sanitizer_message`),
* `codechecker_report_converter/cli.py` (`output_to_plist`),
* the architecture-extraction utility `_find_arch_in_command`
  (exercised by `analyzer/tests/unit/test_triple_arch.py`).

Python strings become Lean `String`s; Python iterators over lines become
explicit `List String` state threaded through the functions; Python's
falsy/None conventions become `Option` and emptiness tests; filesystem
side effects of the conversion entry point become an explicit list of
effect descriptions.  Pieces of the repository that the sources import
but that are not part of the source tree (the shared `get_next` helper,
the `SANParser.parse_stack_trace` stack-trace block parser, the outer
driving loop `parse_messages`, and `_find_arch_in_command` itself) are
modelled from the specification; each such definition says so in its
doc comment.
-/

/-- Embeds Python's `str.split(sep)` for a one-character separator `sep`,
working on the character list of the string.  Python's `split` with an
explicit separator always returns a non-empty list; in particular
`"".split('-') == ['']`. -/
def pySplit (sep : Char) : List Char → List (List Char)
  | [] => [[]]
  | c :: rest =>
    match pySplit sep rest with
    | [] => [[c]]
    | g :: gs => if c = sep then [] :: g :: gs else (c :: g) :: gs

/-- Python's whitespace characters, as used by `str.strip` and `\s`. -/
def isPySpace (c : Char) : Bool :=
  c = ' ' || c = '\t' || c = '\n' || c = '\r' || c = '\x0b' || c = '\x0c'

/-- Embeds Python's `str.strip()`: removes leading and trailing
whitespace characters. -/
def pyStrip (s : String) : String :=
  String.mk (((s.toList.dropWhile isPySpace).reverse.dropWhile isPySpace).reverse)

/-- Embeds `_get_checker_category` of
`clang_tidy/plist_converter.py`:
`parts = checker.split('-'); return parts[0] if parts else 'unknown'`. -/
def _get_checker_category (checker : String) : String :=
  match pySplit '-' checker.toList with
  | [] => "unknown"
  | p :: _ => String.mk p

/-!
## The bug report model

`Event` and `Message` are the canonical value types of the report
model.  Their constructors mirror the positional constructor calls in
`thread/output_parser.py`: `Event(path, line, column, message)` and
`Message(path, line, column, description, checker, events, notes)`.
-/

/-- One point in a diagnostic narrative. -/
structure Event where
  path : String
  line : Nat
  column : Nat
  message : String
deriving Repr, DecidableEq

/-- One reported defect. -/
structure Message where
  path : String
  line : Nat
  column : Nat
  description : String
  checker : String
  events : List Event
  notes : List Event
deriving Repr, DecidableEq

/-!
## ThreadSanitizer recognizer

`TSANParser.parse_sanitizer_message` matches the header regex
`==(?P<code>\d+)==(ERROR|WARNING): ThreadSanitizer: (?P<message>[\S \t]+)`
with `re.match` (anchored at the start of the line, trailing text
allowed), then delegates to the inherited stack-trace block parser.
-/

/-- Consumes the literal `lit` from the front of `cs`; `none` when `cs`
does not start with `lit`. -/
def eatLit : List Char → List Char → Option (List Char)
  | [], cs => some cs
  | _ :: _, [] => none
  | l :: ls, c :: cs => if c = l then eatLit ls cs else none

/-- Consumes one or more decimal digits from the front of `cs`
(the regex piece `\d+`). -/
def eatDigits (cs : List Char) : Option (List Char) :=
  let ds := cs.takeWhile (·.isDigit)
  if ds = [] then none else some (cs.drop ds.length)

/-- A character matched by the regex class `[\S \t]`: any
non-whitespace character, a space, or a tab — everything except the
line-breaking whitespace characters. -/
def isTsanMsgChar (c : Char) : Bool :=
  c = ' ' || c = '\t' || !isPySpace c

/-- Embeds the anchored match of `tsan_line_re` from
`thread/output_parser.py`: on success returns the contents of the
`message` capture group. -/
def tsanMatch (line : String) : Option String :=
  match eatLit "==".toList line.toList with
  | none => none
  | some cs =>
    match eatDigits cs with
    | none => none
    | some cs =>
      match eatLit "==".toList cs with
      | none => none
      | some cs =>
        match (eatLit "ERROR".toList cs).orElse (fun _ => eatLit "WARNING".toList cs) with
        | none => none
        | some cs =>
          match eatLit ": ThreadSanitizer: ".toList cs with
          | none => none
          | some cs =>
            let msg := cs.takeWhile isTsanMsgChar
            if msg = [] then none else some (String.mk msg)

/-- Modelled from the spec: the shared `get_next` helper of the line
cursor (not part of the source tree).  Returns the next line of the
iterator, or the empty-string sentinel past the end of input. -/
def get_next : List String → String × List String
  | [] => ("", [])
  | l :: ls => (l, ls)

/-- Modelled from the spec: the outer shape of a stack-trace frame line
(optional leading blanks, `#`, an ordinal index, a blank). -/
def isFrameLine (line : String) : Bool :=
  match line.toList.dropWhile (fun c => c = ' ' || c = '\t') with
  | '#' :: rest =>
    match eatDigits rest with
    | some (' ' :: _) => true
    | _ => false
  | _ => false

/-- Numeric value of a digit list. -/
def natOfDigits (ds : List Char) : Nat :=
  ds.foldl (fun n d => 10 * n + (d.toNat - '0'.toNat)) 0

/-- Is the token a non-empty run of digits? -/
def isNatTok (ds : List Char) : Bool :=
  ds ≠ [] && ds.all (·.isDigit)

/-- Modelled from the spec: reads a `path:line:column` location token of
a frame line. -/
def splitLoc (tok : List Char) : Option (String × Nat × Nat) :=
  match pySplit ':' tok with
  | [p, l, c] =>
    if p ≠ [] && isNatTok l && isNatTok c then
      some (String.mk p, natOfDigits l, natOfDigits c)
    else none
  | _ => none

/-- Blank-separated tokens of a line, as character lists. -/
def tokensCs (line : String) : List (List Char) :=
  (pySplit ' ' line.toList).filter (· ≠ [])

/-- Modelled from the spec: the location data of a frame line — the
first `path:line:column` token, if any. -/
def parseFrameLoc (line : String) : Option (String × Nat × Nat) :=
  (tokensCs line).findSome? splitLoc

/-- Modelled from the spec: the Event extracted from one matched frame
line; a frame that omits location data still yields an Event, with
empty path and zero line/column. -/
def mkFrameEvent (line : String) : Event :=
  match parseFrameLoc line with
  | some (p, l, c) => ⟨p, l, c, ""⟩
  | none => ⟨"", 0, 0, ""⟩

/-- Result of the stack-trace block parser: the raw consumed lines, one
Event per consumed line, and the cursor (current line plus remaining
iterator) where consumption stopped. -/
structure StackTraceResult where
  stack_traces : List String
  events : List Event
  line : String
  rest : List String
deriving Repr, DecidableEq

/-- Modelled from the spec: `SANParser.parse_stack_trace` (not part of
the source tree).  Starting from the current line, consumes contiguous
frame lines, accumulating the raw lines and one Event per line; stops
at the first non-frame line, which is returned unconsumed. -/
def parse_stack_trace : List String → String → StackTraceResult
  | it, line =>
    if isFrameLine line then
      match it with
      | [] => ⟨[line], [mkFrameEvent line], "", []⟩
      | l :: ls =>
        let r := parse_stack_trace ls l
        ⟨line :: r.stack_traces, mkFrameEvent line :: r.events, r.line, r.rest⟩
    else ⟨[], [], line, it⟩

/-- Embeds `TSANParser.parse_sanitizer_message` of
`thread/output_parser.py`.  The iterator state is threaded explicitly:
the result carries the produced Message (or `none`), the line the
caller should continue from, and the remaining iterator. -/
def parse_sanitizer_message (it : List String) (line : String) :
    Option Message × String × List String :=
  match tsanMatch line with
  | none => (none, line, it)
  | some msg =>
    let n := get_next it
    let r := parse_stack_trace n.2 n.1
    match r.events with
    | [] => (none, r.line, r.rest)
    | e0 :: es =>
      (some ⟨e0.path, e0.line, e0.column, pyStrip msg, "ThreadSanitizer",
             e0 :: es, [⟨e0.path, e0.line, e0.column, String.join r.stack_traces⟩]⟩,
       r.line, r.rest)

/-!
## Driving loop and grouping/serialization entry point
-/

/-- Modelled from the spec: the outer driving loop of
`SANParser.parse_messages` (not part of the source tree).  Repeatedly
attempts the recognizer at the current line; on success collects the
Message and continues from the returned line; on failure advances one
line past the returned cursor and retries; terminates at end of input.
The fuel argument bounds the number of iterations; `parse_messages`
supplies enough fuel for the loop to run to end of input. -/
def drive : Nat → List String → String → List Message
  | 0, _, _ => []
  | fuel + 1, it, line =>
    match parse_sanitizer_message it line with
    | (some m, line1, it1) => m :: drive fuel it1 line1
    | (none, _, it1) =>
      match it1 with
      | [] => []
      | l :: ls => drive fuel ls l

/-- Modelled from the spec: `parse_messages` for the ThreadSanitizer
family — run the driving loop over the whole input. -/
def parse_messages (output : List String) : List Message :=
  match output with
  | [] => []
  | l :: ls => drive (ls.length + 1) ls l

/-- Embeds `os.path.basename` for POSIX paths: the text after the last
`/`. -/
def basename (p : String) : String :=
  String.mk ((p.toList.reverse.takeWhile (· ≠ '/')).reverse)

/-- Embeds the output file naming of `output_to_plist` in `cli.py`:
`'{0}_{1}.plist'.format(os.path.basename(c), parser_type)` (the braces
in the Python format string are placeholders 0 and 1). -/
def outFileName (path parser_type : String) : String :=
  basename path ++ "_" ++ parser_type ++ ".plist"

/-- Embeds `os.path.join(output_dir, name)` for a relative `name` and a
directory path without a trailing separator. -/
def pathJoin (dir name : String) : String :=
  dir ++ "/" ++ name

/-- Embeds the per-path grouping loop of `output_to_plist`: a Python
dict from path to the converter's accumulated message list, as an
insertion-ordered association list. -/
def insertMsg : List (String × List Message) → Message → List (String × List Message)
  | [], m => [(m.path, [m])]
  | (p, ms) :: rest, m =>
    if p = m.path then (p, ms ++ [m]) :: rest
    else (p, ms) :: insertMsg rest m

/-- The grouping of `output_to_plist`: fold the parsed messages into
the path-keyed dict in parse order. -/
def groupByPath (msgs : List Message) : List (String × List Message) :=
  msgs.foldl insertMsg []

/-- A filesystem effect performed by the conversion entry point. -/
inductive FsOp where
  | rmtree (dir : String)
  | makedirs (dir : String)
  | writeFile (path : String) (msgs : List Message)
deriving Repr, DecidableEq

/-- How one invocation of the conversion entry point ends: `exited c`
models `sys.exit(c)`, `completed files` models falling through the end
of the function after writing the named files. -/
inductive RunOutcome where
  | exited (code : Nat)
  | completed (files : List String)
deriving Repr, DecidableEq

/-- Embeds `output_to_plist` of `cli.py`.  `parse` stands for
`supported_converters[parser_type]().parse_messages`; `dirExists`
captures whether `output_dir` exists before the call.  The result is
the control-flow outcome together with the ordered list of filesystem
effects the function performs. -/
def output_to_plist (parse : List String → List Message) (output : List String)
    (parser_type output_dir : String) (clean dirExists : Bool) :
    RunOutcome × List FsOp :=
  let messages := parse output
  if messages = [] then
    (RunOutcome.exited 0, [])
  else
    let groups := groupByPath messages
    let cleanOps := if clean && dirExists then [FsOp.rmtree output_dir] else []
    let dirStillThere := dirExists && !(clean && dirExists)
    let mkOps := if dirStillThere then [] else [FsOp.makedirs output_dir]
    let files := groups.map fun g => pathJoin output_dir (outFileName g.1 parser_type)
    let writes := groups.map fun g =>
      FsOp.writeFile (pathJoin output_dir (outFileName g.1 parser_type)) g.2
    (RunOutcome.completed files, cleanOps ++ mkOps ++ writes)

/-!
## Architecture-extraction utility
-/

/-- Removes one double quote from each end of a token, when present. -/
def stripQuotes (s : String) : String :=
  let l := s.toList
  let l := if l.head? = some '"' then l.drop 1 else l
  let l := if l.getLast? = some '"' then l.dropLast else l
  String.mk l

/-- Blank-separated, unquoted tokens of one invocation line. -/
def cmdTokens (line : String) : List String :=
  ((pySplit ' ' line.toList).filter (· ≠ [])).map (fun t => stripQuotes (String.mk t))

/-- Text of the target triple before its first `-`: the architecture. -/
def archOfTriple (trip : String) : String :=
  String.mk (trip.toList.takeWhile (· ≠ '-'))

/-- Modelled from the spec: the per-line scan of
`ctu_triple_arch._find_arch_in_command` (the function itself is not
part of the source tree, only its unit test is): the token after the
first `-triple` token, reduced to its architecture part. -/
def findTripleArch : List String → Option String
  | [] => none
  | tok :: rest =>
    if tok = "-triple" then
      match rest with
      | [] => none
      | trip :: _ => some (archOfTriple trip)
    else findTripleArch rest

/-- The lines of a captured invocation trace. -/
def pyLines (s : String) : List String :=
  (pySplit '\n' s.toList).map String.mk

/-- Modelled from the spec: `ctu_triple_arch._find_arch_in_command` —
scan the trace's lines for a `-triple` flag followed by a target-triple
token; return the triple's architecture part, or `none` when no line
carries the flag. -/
def _find_arch_in_command (output : String) : Option String :=
  (pyLines output).findSome? (fun l => findTripleArch (cmdTokens l))

/-!
## Concrete exemplar inputs

Small concrete inputs, used to instantiate the theorems below on real
data.
-/

/-- A ThreadSanitizer header line. -/
def tsanHeaderEx : String := "==1==WARNING: ThreadSanitizer: data race (pid=1)"

/-- A second ThreadSanitizer header line. -/
def tsanHeader2Ex : String := "==2==ERROR: ThreadSanitizer: thread leak"

/-- A stack-trace frame line. -/
def tsanFrameEx : String := "    #0 main a.c:5:2 (a.out+0x4)"

/-- The Message the recognizer produces from `tsanHeaderEx` followed by
`tsanFrameEx`. -/
def tsanMsgEx : Message :=
  ⟨"a.c", 5, 2, "data race (pid=1)", "ThreadSanitizer",
   [⟨"a.c", 5, 2, ""⟩], [⟨"a.c", 5, 2, tsanFrameEx⟩]⟩

/-- Two messages with distinct paths that share a base name. -/
def msgAx : Message := ⟨"/a/x.c", 1, 1, "d1", "ThreadSanitizer", [⟨"/a/x.c", 1, 1, ""⟩], []⟩

/-- See `msgAx`. -/
def msgBx : Message := ⟨"/b/x.c", 2, 2, "d2", "ThreadSanitizer", [⟨"/b/x.c", 2, 2, ""⟩], []⟩

/-- A captured invocation trace carrying a `-triple` flag. -/
def cmdTraceEx : String :=
  "clang -cc1\n \"-triple\" \"x86_64-unknown-linux-gnu\" \"main.cpp\""

/-- A captured invocation trace with no `-triple` flag. -/
def cmdTraceNoTripleEx : String :=
  "clang -cc1\n \"main.cpp\" \"-o\" \"main.o\""

/-!
## Theorems

### Python `str.split` facts
-/

/-- `pySplit` never returns the empty list (as Python's `str.split`
with an explicit separator never returns an empty list). -/
theorem pySplit_ne_nil (sep : Char) (l : List Char) : pySplit sep l ≠ [] := by
  cases l with
  | nil => simp [pySplit]
  | cons c rest =>
    simp only [pySplit]
    cases h : pySplit sep rest with
    | nil => simp
    | cons g gs =>
      by_cases hc : c = sep <;> simp [hc]

/-- The first group of `pySplit` is the longest prefix free of the
separator. -/
theorem pySplit_head (sep : Char) (l : List Char) :
    ∃ gs, pySplit sep l = l.takeWhile (· ≠ sep) :: gs := by
  induction l with
  | nil => exact ⟨[], rfl⟩
  | cons c rest ih =>
    obtain ⟨gs, hgs⟩ := ih
    by_cases hc : c = sep
    · refine ⟨pySplit sep rest, ?_⟩
      simp only [pySplit, hgs, List.takeWhile]
      simp [hc]
    · refine ⟨gs, ?_⟩
      simp only [pySplit, hgs, List.takeWhile]
      simp [hc]

/-!
### Checker category (C1, C9)
-/

/-- Claim C1, counterexample.  The claim says the empty checker name
derives the category `"unknown"`; on the code it derives the empty
string. -/
theorem c1_category_counterexample :
    _get_checker_category "" = "" ∧ ("" : String) ≠ "unknown" := by
  constructor
  · rfl
  · decide

/-- Claim C1, amended.  For every checker name the derived category is
the substring before the first `-`; a name without `-` (the empty name
included) yields the whole name, never the literal `"unknown"`. -/
theorem c1_category_amended (checker : String) :
    _get_checker_category checker =
      String.mk (checker.toList.takeWhile (· ≠ '-')) := by
  obtain ⟨gs, h⟩ := pySplit_head '-' checker.toList
  simp only [_get_checker_category, h]

/-- Claim C9.  `_get_checker_category` always returns
`checker.split('-')[0]`: the split is never empty, so the `'unknown'`
fallback branch is unreachable; a name with no `-` yields the whole
name, and the empty name yields the empty string. -/
theorem c9_category_is_split_head (checker : String) :
    (pySplit '-' checker.toList ≠ [] ∧
      _get_checker_category checker =
        String.mk ((pySplit '-' checker.toList).headD []) ∧
      _get_checker_category "" = "") ∧
    ('-' ∉ checker.toList → _get_checker_category checker = checker) := by
  obtain ⟨gs, h⟩ := pySplit_head '-' checker.toList
  refine ⟨⟨pySplit_ne_nil _ _, ?_, rfl⟩, ?_⟩
  · simp only [_get_checker_category, h, List.headD_cons]
  · intro hnd
    simp only [_get_checker_category, h]
    have : checker.toList.takeWhile (· ≠ '-') = checker.toList := by
      rw [List.takeWhile_eq_self_iff]
      intro a ha
      simp only [decide_eq_true_eq]
      exact fun hEq => hnd (hEq ▸ ha)
    rw [this]
    rfl

/-- Claim C9, witness.  A dash-free name is returned whole. -/
theorem c9_category_is_split_head_witness :
    '-' ∉ "nodash".toList ∧ _get_checker_category "nodash" = "nodash" :=
  ⟨by decide, (c9_category_is_split_head "nodash").2 (by decide)⟩

/-!
### Stack-trace block parser facts
-/

/-- If the block parser accumulated no Event, it consumed nothing: the
cursor is exactly where it started. -/
theorem parse_stack_trace_events_nil (it : List String) (line : String)
    (h : (parse_stack_trace it line).events = []) :
    parse_stack_trace it line = ⟨[], [], line, it⟩ := by
  by_cases hf : isFrameLine line
  · exfalso
    cases it <;> simp [parse_stack_trace, hf] at h
  · cases it <;> simp [parse_stack_trace, hf]

/-- The raw accumulated lines are exactly the lines the block parser
consumed: the input stream splits into the accumulated lines followed
by the returned cursor (or was consumed whole, with the end-of-input
sentinel returned). -/
theorem parse_stack_trace_consumed (it : List String) (line : String) :
    line :: it = (parse_stack_trace it line).stack_traces ++
        (parse_stack_trace it line).line :: (parse_stack_trace it line).rest ∨
      (line :: it = (parse_stack_trace it line).stack_traces ∧
        (parse_stack_trace it line).line = "" ∧
        (parse_stack_trace it line).rest = []) := by
  induction it generalizing line with
  | nil =>
    by_cases hf : isFrameLine line
    · right; simp [parse_stack_trace, hf]
    · left; simp [parse_stack_trace, hf]
  | cons l ls ih =>
    by_cases hf : isFrameLine line
    · rcases ih l with h | ⟨h1, h2, h3⟩
      · left
        simp only [parse_stack_trace, hf, if_pos]
        simpa using h
      · right
        simp only [parse_stack_trace, hf, if_pos]
        exact ⟨by simpa using h1, h2, h3⟩
    · left; simp [parse_stack_trace, hf]

/-- Shape of a successful recognition: the header matched, the block
parser produced at least one Event, and the Message is assembled from
the first Event, the stripped header message and the concatenated raw
block text, with the block parser's final cursor returned. -/
theorem parse_sanitizer_message_some (it : List String) (line line1 : String)
    (rest : List String) (m : Message)
    (h : parse_sanitizer_message it line = (some m, line1, rest)) :
    ∃ msg e0 es,
      tsanMatch line = some msg ∧
      (parse_stack_trace (get_next it).2 (get_next it).1).events = e0 :: es ∧
      m = ⟨e0.path, e0.line, e0.column, pyStrip msg, "ThreadSanitizer", e0 :: es,
           [⟨e0.path, e0.line, e0.column,
             String.join (parse_stack_trace (get_next it).2 (get_next it).1).stack_traces⟩]⟩ ∧
      line1 = (parse_stack_trace (get_next it).2 (get_next it).1).line ∧
      rest = (parse_stack_trace (get_next it).2 (get_next it).1).rest := by
  cases htm : tsanMatch line with
  | none => simp [parse_sanitizer_message, htm] at h
  | some msg =>
    simp only [parse_sanitizer_message, htm] at h
    split at h
    · simp at h
    · rename_i e0 es hev
      simp only [Prod.mk.injEq, Option.some.injEq] at h
      obtain ⟨h1, h2, h3⟩ := h
      exact ⟨msg, e0, es, rfl, hev, h1.symm, h2.symm, h3.symm⟩

/-!
### ThreadSanitizer recognizer (C3, C4, C5, C7)
-/

/-- Claim C3.  Every Message the ThreadSanitizer recognizer constructs
has its primary path, line and column equal to those of its first
Event. -/
theorem c3_primary_location_is_first_event (it : List String)
    (line line1 : String) (rest : List String) (m : Message)
    (h : parse_sanitizer_message it line = (some m, line1, rest)) :
    ∃ e es, m.events = e :: es ∧
      m.path = e.path ∧ m.line = e.line ∧ m.column = e.column := by
  obtain ⟨msg, e0, es, _, _, hm, _, _⟩ := parse_sanitizer_message_some it line line1 rest m h
  exact ⟨e0, es, by rw [hm], by rw [hm], by rw [hm], by rw [hm]⟩

/-- Claim C3, witness. -/
theorem c3_primary_location_is_first_event_witness :
    parse_sanitizer_message [tsanFrameEx] tsanHeaderEx = (some tsanMsgEx, "", []) ∧
    (∃ e es, tsanMsgEx.events = e :: es ∧
      tsanMsgEx.path = e.path ∧ tsanMsgEx.line = e.line ∧ tsanMsgEx.column = e.column) :=
  ⟨by decide,
   c3_primary_location_is_first_event [tsanFrameEx] tsanHeaderEx "" [] tsanMsgEx (by decide)⟩

/-- Claim C4.  Every recognized ThreadSanitizer block yields a Message
with exactly one note, whose text is the verbatim concatenation of the
consumed stack-trace lines and whose location is the Message's primary
location; the accumulated lines really are the consumed prefix of the
input after the header. -/
theorem c4_single_verbatim_note (it : List String)
    (line line1 : String) (rest : List String) (m : Message)
    (h : parse_sanitizer_message it line = (some m, line1, rest)) :
    m.notes = [⟨m.path, m.line, m.column,
      String.join (parse_stack_trace (get_next it).2 (get_next it).1).stack_traces⟩] ∧
    ((get_next it).1 :: (get_next it).2 =
        (parse_stack_trace (get_next it).2 (get_next it).1).stack_traces ++
          (parse_stack_trace (get_next it).2 (get_next it).1).line ::
            (parse_stack_trace (get_next it).2 (get_next it).1).rest ∨
      ((get_next it).1 :: (get_next it).2 =
          (parse_stack_trace (get_next it).2 (get_next it).1).stack_traces ∧
        (parse_stack_trace (get_next it).2 (get_next it).1).line = "" ∧
        (parse_stack_trace (get_next it).2 (get_next it).1).rest = [])) := by
  obtain ⟨msg, e0, es, _, _, hm, _, _⟩ := parse_sanitizer_message_some it line line1 rest m h
  constructor
  · rw [hm]
  · exact parse_stack_trace_consumed (get_next it).2 (get_next it).1

/-- Claim C4, witness. -/
theorem c4_single_verbatim_note_witness :
    tsanMsgEx.notes = [⟨"a.c", 5, 2, tsanFrameEx⟩] := by
  have h := c4_single_verbatim_note [tsanFrameEx] tsanHeaderEx "" [] tsanMsgEx (by decide)
  exact h.1.trans (by decide)

/-- Claim C5.  When the header matches but the block parser accumulates
zero Events, the recognizer produces no Message and returns the cursor
at the line right after the header with the iterator untouched beyond
it; and no Message it ever produces has an empty events sequence. -/
theorem c5_zero_frames_discarded (it : List String) (line msg : String)
    (h1 : tsanMatch line = some msg)
    (h2 : (parse_stack_trace (get_next it).2 (get_next it).1).events = []) :
    parse_sanitizer_message it line = (none, (get_next it).1, (get_next it).2) ∧
    (∀ it2 l2 l' r m, parse_sanitizer_message it2 l2 = (some m, l', r) →
      m.events ≠ []) := by
  constructor
  · have hz := parse_stack_trace_events_nil (get_next it).2 (get_next it).1 h2
    simp [parse_sanitizer_message, h1, hz]
  · intro it2 l2 l' r m h
    obtain ⟨msg2, e0, es, _, _, hm, _, _⟩ := parse_sanitizer_message_some it2 l2 l' r m h
    rw [hm]
    simp

/-- Claim C5, witness. -/
theorem c5_zero_frames_discarded_witness :
    parse_sanitizer_message ["junk"] tsanHeader2Ex = (none, "junk", []) ∧
    tsanMsgEx.events ≠ [] := by
  have h := c5_zero_frames_discarded ["junk"] tsanHeader2Ex "thread leak"
    (by decide) (by decide)
  exact ⟨h.1.trans (by decide),
    h.2 [tsanFrameEx] tsanHeaderEx "" [] tsanMsgEx (by decide)⟩

/-- A line that fails the header match is returned unchanged with the
iterator untouched. -/
theorem parse_sanitizer_message_no_match (it : List String) (line : String)
    (h : tsanMatch line = none) :
    parse_sanitizer_message it line = (none, line, it) := by
  simp [parse_sanitizer_message, h]

/-- Claim C7.  On a line that fails the ThreadSanitizer header pattern,
the recognizer reports no match, hands back that same line unchanged,
and consumes nothing from the line iterator. -/
theorem c7_no_match_leaves_cursor (it : List String) (line : String)
    (h : tsanMatch line = none) :
    parse_sanitizer_message it line = (none, line, it) :=
  parse_sanitizer_message_no_match it line h

/-- Claim C7, witness. -/
theorem c7_no_match_leaves_cursor_witness :
    parse_sanitizer_message ["next line"] "unrelated noise" =
      (none, "unrelated noise", ["next line"]) :=
  c7_no_match_leaves_cursor ["next line"] "unrelated noise" (by decide)

/-!
### Driving loop and conversion entry point (C6, C10)
-/

/-- When no line of the remaining input matches the header pattern, the
driving loop collects nothing. -/
theorem drive_nil_of_no_match (fuel : Nat) :
    ∀ (it : List String) (line : String),
      (∀ l ∈ line :: it, tsanMatch l = none) → drive fuel it line = [] := by
  induction fuel with
  | zero => intro it line _; rfl
  | succ n ih =>
    intro it line h
    have hline : tsanMatch line = none := h line (by simp)
    simp only [drive, parse_sanitizer_message_no_match it line hline]
    cases it with
    | nil => rfl
    | cons l ls =>
      exact ih ls l (fun l' hl' => h l' (by simp at hl' ⊢; tauto))

/-- When no line of the input matches the header pattern, the engine
produces zero Messages. -/
theorem parse_messages_nil_of_no_match (output : List String)
    (h : ∀ l ∈ output, tsanMatch l = none) : parse_messages output = [] := by
  cases output with
  | nil => rfl
  | cons l ls => exact drive_nil_of_no_match (ls.length + 1) ls l h

/-- Claim C6.  An input with no ThreadSanitizer header line yields zero
Messages, and the conversion entry point then reports the empty-result
outcome — `sys.exit(0)`, a success status with no files written —
which is distinct from every success-with-output outcome. -/
theorem c6_empty_result_not_error (output : List String)
    (parser_type output_dir : String) (clean dirExists : Bool)
    (h : ∀ l ∈ output, tsanMatch l = none) :
    parse_messages output = [] ∧
    output_to_plist parse_messages output parser_type output_dir clean dirExists =
      (RunOutcome.exited 0, []) ∧
    (∀ files, RunOutcome.exited 0 ≠ RunOutcome.completed files) := by
  have hp := parse_messages_nil_of_no_match output h
  refine ⟨hp, ?_, ?_⟩
  · simp [output_to_plist, hp]
  · intro files hcon
    cases hcon

/-- Claim C6, witness. -/
theorem c6_empty_result_not_error_witness :
    parse_messages ["plain log noise"] = [] ∧
    output_to_plist parse_messages ["plain log noise"] "tsan" "reports" false false =
      (RunOutcome.exited 0, []) ∧
    RunOutcome.exited 0 ≠ RunOutcome.completed [] := by
  have h := c6_empty_result_not_error ["plain log noise"] "tsan" "reports"
    false false (by decide)
  exact ⟨h.1, h.2.1, h.2.2 []⟩

/-- Claim C10.  Whenever the parse yields zero Messages, the conversion
entry point exits with status 0 having performed no filesystem
operation at all — in particular the output directory is neither
cleaned nor created, even with the clean flag set. -/
theorem c10_exit_before_fs_ops (parse : List String → List Message)
    (output : List String) (parser_type output_dir : String)
    (clean dirExists : Bool) (h : parse output = []) :
    output_to_plist parse output parser_type output_dir clean dirExists =
      (RunOutcome.exited 0, []) := by
  simp [output_to_plist, h]

/-- Claim C10, witness.  With the clean flag set and the directory
present, an empty parse still causes no filesystem operation. -/
theorem c10_exit_before_fs_ops_witness :
    parse_messages ["no sanitizer report here"] = [] ∧
    output_to_plist parse_messages ["no sanitizer report here"] "tsan" "out" true true =
      (RunOutcome.exited 0, []) :=
  ⟨by decide,
   c10_exit_before_fs_ops parse_messages ["no sanitizer report here"] "tsan" "out"
     true true (by decide)⟩


/-!
### Grouping by path (C2)
-/

/-- Inserting a message either leaves the dict's keys unchanged (its
path is already a key) or appends its path as a new last key. -/
theorem insertMsg_keys (acc : List (String × List Message)) (m : Message) :
    (insertMsg acc m).map Prod.fst =
      if m.path ∈ acc.map Prod.fst then acc.map Prod.fst
      else acc.map Prod.fst ++ [m.path] := by
  induction acc with
  | nil => simp [insertMsg]
  | cons e rest ih =>
    obtain ⟨p, ms⟩ := e
    by_cases hp : p = m.path
    · simp [insertMsg, hp]
    · have hne : ¬ m.path = p := fun h => hp h.symm
      simp only [insertMsg, if_neg hp, List.map_cons, List.mem_cons]
      rw [ih]
      by_cases hm : m.path ∈ rest.map Prod.fst <;> simp [hm, hne]

/-- Entries keyed by a different path are untouched by an insertion. -/
theorem insertMsg_mem_ne (acc : List (String × List Message)) (m : Message)
    (p : String) (ms : List Message) (hp : p ≠ m.path) :
    (p, ms) ∈ insertMsg acc m ↔ (p, ms) ∈ acc := by
  induction acc with
  | nil => simp [insertMsg, hp]
  | cons e rest ih =>
    obtain ⟨q, qs⟩ := e
    by_cases hq : q = m.path
    · have hrw : insertMsg ((q, qs) :: rest) m = (q, qs ++ [m]) :: rest := by
        simp [insertMsg, hq]
      rw [hrw, List.mem_cons, List.mem_cons]
      constructor
      · rintro (h | h)
        · exact absurd ((congrArg Prod.fst h).trans hq) hp
        · exact Or.inr h
      · rintro (h | h)
        · exact absurd ((congrArg Prod.fst h).trans hq) hp
        · exact Or.inr h
    · have hrw : insertMsg ((q, qs) :: rest) m = (q, qs) :: insertMsg rest m := by
        simp [insertMsg, hq]
      rw [hrw, List.mem_cons, List.mem_cons, ih]

/-- The dict entry carrying the inserted message's path: its list is
the previous list with the message appended, or the singleton when the
path is new.  (Requires the dict's keys to be duplicate-free, which the
grouping loop maintains.) -/
theorem insertMsg_mem_eq (acc : List (String × List Message)) (m : Message)
    (ms : List Message) (hnd : (acc.map Prod.fst).Nodup) :
    (m.path, ms) ∈ insertMsg acc m ↔
      (∃ old, (m.path, old) ∈ acc ∧ ms = old ++ [m]) ∨
        (m.path ∉ acc.map Prod.fst ∧ ms = [m]) := by
  induction acc with
  | nil => simp [insertMsg]
  | cons e rest ih =>
    obtain ⟨q, qs⟩ := e
    simp only [List.map_cons, List.nodup_cons] at hnd
    obtain ⟨hqn, hndr⟩ := hnd
    by_cases hq : q = m.path
    · subst hq
      have hrw : insertMsg ((m.path, qs) :: rest) m = (m.path, qs ++ [m]) :: rest := by
        simp [insertMsg]
      rw [hrw]
      constructor
      · intro h
        rcases List.mem_cons.mp h with h | h
        · exact Or.inl ⟨qs, List.mem_cons_self _ _, congrArg Prod.snd h⟩
        · exact absurd (List.mem_map.mpr ⟨(m.path, ms), h, rfl⟩) hqn
      · rintro (⟨old, hmem, h3⟩ | ⟨hnm, h3⟩)
        · rcases List.mem_cons.mp hmem with h | h
          · have hq2 : old = qs := congrArg Prod.snd h
            rw [h3, hq2]
            exact List.mem_cons_self _ _
          · exact absurd (List.mem_map.mpr ⟨(m.path, old), h, rfl⟩) hqn
        · simp at hnm
    · have hrw : insertMsg ((q, qs) :: rest) m = (q, qs) :: insertMsg rest m := by
        simp [insertMsg, hq]
      rw [hrw, List.mem_cons, ih hndr]
      constructor
      · rintro (h | (⟨old, hmem, h3⟩ | ⟨hnm, h3⟩))
        · exact absurd (congrArg Prod.fst h).symm hq
        · exact Or.inl ⟨old, List.mem_cons_of_mem _ hmem, h3⟩
        · refine Or.inr ⟨?_, h3⟩
          simp only [List.map_cons, List.mem_cons]
          rintro (h | h)
          · exact hq h.symm
          · exact hnm h
      · rintro (⟨old, hmem, h3⟩ | ⟨hnm, h3⟩)
        · rcases List.mem_cons.mp hmem with h | h
          · exact absurd (congrArg Prod.fst h).symm hq
          · exact Or.inr (Or.inl ⟨old, h, h3⟩)
        · refine Or.inr (Or.inr ⟨?_, h3⟩)
          intro h
          exact hnm (by simp [h])

/-- The grouping invariant of `output_to_plist`: after folding the
parsed messages into the path-keyed dict, the keys are duplicate-free,
they are exactly the primary paths occurring among the messages, and
each path's entry holds exactly the messages with that path, in parse
order. -/
theorem groupByPath_spec (msgs : List Message) :
    ((groupByPath msgs).map Prod.fst).Nodup ∧
    (∀ p, p ∈ (groupByPath msgs).map Prod.fst ↔ p ∈ msgs.map Message.path) ∧
    (∀ p ms, (p, ms) ∈ groupByPath msgs →
      ms = msgs.filter (fun m' => m'.path == p)) := by
  induction msgs using List.reverseRecOn with
  | nil => simp [groupByPath]
  | append_singleton msgs m ih =>
    obtain ⟨ihnd, ihmem, ihcont⟩ := ih
    have hfold : groupByPath (msgs ++ [m]) = insertMsg (groupByPath msgs) m := by
      simp [groupByPath, List.foldl_append]
    refine ⟨?_, ?_, ?_⟩
    · rw [hfold, insertMsg_keys]
      by_cases hm : m.path ∈ (groupByPath msgs).map Prod.fst
      · rw [if_pos hm]
        exact ihnd
      · rw [if_neg hm]
        simp [List.nodup_append, ihnd, hm]
    · intro p
      rw [hfold, insertMsg_keys]
      by_cases hm : m.path ∈ (groupByPath msgs).map Prod.fst
      · rw [if_pos hm, ihmem]
        constructor
        · intro h
          simp [h]
        · intro h
          rcases (by simpa using h : p ∈ msgs.map Message.path ∨ p = m.path) with h | h
          · exact h
          · exact h ▸ (ihmem m.path).mp hm
      · rw [if_neg hm]
        simp only [List.mem_append, List.mem_singleton, List.map_append,
          List.map_cons, List.map_nil, ihmem p]
    · intro p ms hmem
      rw [hfold] at hmem
      by_cases hp : p = m.path
      · rw [hp] at hmem ⊢
        rw [insertMsg_mem_eq _ _ _ ihnd] at hmem
        rcases hmem with ⟨old, hold, h3⟩ | ⟨hnm, h3⟩
        · have hoc := ihcont m.path old hold
          rw [h3, hoc, List.filter_append]
          simp
        · have hnp : m.path ∉ msgs.map Message.path := fun h => hnm ((ihmem m.path).mpr h)
          have hfil : msgs.filter (fun m' => m'.path == m.path) = [] := by
            rw [List.filter_eq_nil_iff]
            intro a ha
            simp only [beq_iff_eq]
            exact fun hEq => hnp (List.mem_map.mpr ⟨a, ha, hEq⟩)
          rw [h3, List.filter_append, hfil]
          simp
      · rw [insertMsg_mem_ne _ _ _ _ hp] at hmem
        have hoc := ihcont p ms hmem
        rw [hoc, List.filter_append]
        have hfil : [m].filter (fun m' => m'.path == p) = [] := by
          simp [Ne.symm hp]
        rw [hfil]
        simp

/-- Claim C2, counterexample.  Two Messages with distinct primary paths
but equal base names: one conversion run writes both groups to the same
output file name, so the naming scheme does collide. -/
theorem c2_collision_counterexample :
    msgAx.path ≠ msgBx.path ∧
    output_to_plist (fun _ => [msgAx, msgBx]) [] "tsan" "out" false true =
      (RunOutcome.completed ["out/x.c_tsan.plist", "out/x.c_tsan.plist"],
       [FsOp.writeFile "out/x.c_tsan.plist" [msgAx],
        FsOp.writeFile "out/x.c_tsan.plist" [msgBx]]) := by
  constructor
  · decide
  · decide

/-- Claim C2, amended.  The conversion entry point groups the N parsed
Messages into exactly K groups, one per distinct primary path (the
keys are duplicate-free and are exactly the paths that occur), each
group holding exactly the Messages with that path in original parse
order; but the output file name depends only on the path's base name
and the family identifier, so two distinct source paths with equal
base names collide into the same output file within one run. -/
theorem c2_grouping_amended (msgs : List Message) :
    ((groupByPath msgs).map Prod.fst).Nodup ∧
    (∀ p, p ∈ (groupByPath msgs).map Prod.fst ↔ p ∈ msgs.map Message.path) ∧
    (∀ p ms, (p, ms) ∈ groupByPath msgs →
      ms = msgs.filter (fun m' => m'.path == p)) ∧
    (∀ p q parser_type, basename p = basename q →
      outFileName p parser_type = outFileName q parser_type) := by
  obtain ⟨h1, h2, h3⟩ := groupByPath_spec msgs
  refine ⟨h1, h2, h3, ?_⟩
  intro p q parser_type h
  simp [outFileName, h]

/-- Claim C2, witness. -/
theorem c2_grouping_amended_witness :
    ("/a/x.c", [msgAx]) ∈ groupByPath [msgAx, msgBx] ∧
    [msgAx] = [msgAx, msgBx].filter (fun m' => m'.path == "/a/x.c") :=
  ⟨by decide,
   (c2_grouping_amended [msgAx, msgBx]).2.2.1 "/a/x.c" [msgAx] (by decide)⟩

/-!
### Architecture extraction (C8)
-/

/-- A token list without the `-triple` flag yields no architecture. -/
theorem findTripleArch_eq_none (toks : List String) (h : "-triple" ∉ toks) :
    findTripleArch toks = none := by
  induction toks with
  | nil => rfl
  | cons t rest ih =>
    simp only [List.mem_cons] at h
    have ht : t ≠ "-triple" := fun hEq => h (Or.inl hEq.symm)
    simp only [findTripleArch, if_neg ht]
    exact ih fun hm => h (Or.inr hm)

/-- The first `-triple` flag with a following token determines the
extracted architecture. -/
theorem findTripleArch_eq_some (pre post : List String) (trip : String)
    (h : "-triple" ∉ pre) :
    findTripleArch (pre ++ "-triple" :: trip :: post) =
      some (archOfTriple trip) := by
  induction pre with
  | nil => simp [findTripleArch]
  | cons t rest ih =>
    simp only [List.mem_cons] at h
    have ht : t ≠ "-triple" := fun hEq => h (Or.inl hEq.symm)
    simp only [List.cons_append, findTripleArch, if_neg ht]
    exact ih fun hm => h (Or.inr hm)

/-- Lines that carry no `-triple` flag contribute nothing to the
line-by-line scan. -/
theorem findSome?_append_none {α β : Type} (f : α → Option β)
    (l1 l2 : List α) (h : ∀ x ∈ l1, f x = none) :
    (l1 ++ l2).findSome? f = l2.findSome? f := by
  induction l1 with
  | nil => rfl
  | cons a as ih =>
    have ha : f a = none := h a (by simp)
    simp only [List.cons_append, List.findSome?, ha]
    exact ih fun x hx => h x (by simp [hx])

/-- Claim C8.  The architecture-extraction utility returns the text
before the first `-` of the target triple that follows the first
`-triple` flag of the first invocation line carrying one, and returns
the explicit not-found result when no line of the trace carries a
`-triple` flag. -/
theorem c8_find_arch (output : String) :
    ((∀ l ∈ pyLines output, "-triple" ∉ cmdTokens l) →
      _find_arch_in_command output = none) ∧
    (∀ ls1 l ls2 pre trip post,
      pyLines output = ls1 ++ l :: ls2 →
      (∀ l' ∈ ls1, "-triple" ∉ cmdTokens l') →
      cmdTokens l = pre ++ "-triple" :: trip :: post →
      "-triple" ∉ pre →
      _find_arch_in_command output =
        some (String.mk (trip.toList.takeWhile (· ≠ '-')))) := by
  constructor
  · intro h
    unfold _find_arch_in_command
    have hnone := findSome?_append_none (fun l => findTripleArch (cmdTokens l))
      (pyLines output) [] (fun x hx => findTripleArch_eq_none _ (h x hx))
    simpa using hnone
  · intro ls1 l ls2 pre trip post hsplit hbefore htoks hpre
    unfold _find_arch_in_command
    rw [hsplit]
    rw [findSome?_append_none _ ls1 (l :: ls2)
      (fun l' hl' => findTripleArch_eq_none _ (hbefore l' hl'))]
    have hl : findTripleArch (cmdTokens l) = some (archOfTriple trip) := by
      rw [htoks]
      exact findTripleArch_eq_some pre post trip hpre
    rw [List.findSome?_cons, hl]
    rfl

/-- Claim C8, witness.  The two shapes from the unit test: a trace with a
`-triple` flag yields the architecture `x86_64`, a trace without one
yields the not-found result. -/
theorem c8_find_arch_witness :
    _find_arch_in_command cmdTraceEx = some "x86_64" ∧
    _find_arch_in_command cmdTraceNoTripleEx = none := by
  constructor
  · have h := (c8_find_arch cmdTraceEx).2 ["clang -cc1"]
      " \"-triple\" \"x86_64-unknown-linux-gnu\" \"main.cpp\"" [] []
      "x86_64-unknown-linux-gnu" ["main.cpp"]
      (by decide) (by decide) (by decide) (by decide)
    exact h.trans (by decide)
  · exact (c8_find_arch cmdTraceNoTripleEx).1 (by decide)
